import Mathlib

/-
Verification of the Video Segment Annotator (src/video_annotator.py) against
its specification.  The Python source is shallowly embedded: Python floats are
modelled as rationals, Python ints as integers, the mutable
`VideoSegmentAnnotator` object as an explicit `PlayerState` record, and
filesystem effects as explicit lists of effect descriptions.
-/

namespace VideoAnnotator

/-! ### Python primitives -/

/-- Python `int(x)` applied to a float: truncation toward zero. -/
def pyInt (x : ℚ) : ℤ := if 0 ≤ x then ⌊x⌋ else ⌈x⌉

/-- Python float floor division `a // b`. -/
def pyFloorDiv (a b : ℚ) : ℚ := ((⌊a / b⌋ : ℤ) : ℚ)

/-- Python float modulo `a % b` (result has the sign of `b`; used with `b = 60 > 0`). -/
def pyMod (a b : ℚ) : ℚ := a - b * ((⌊a / b⌋ : ℤ) : ℚ)

/-- Python `f"{n:0wd}"`: decimal rendering of `n` left-padded with zeros to width `w`. -/
def padZeros (w : ℕ) (n : ℤ) : String :=
  let s := toString n
  if s.length < w then String.mk (List.replicate (w - s.length) '0') ++ s else s

/-- Lexicographic comparison of character lists by code point, as Python
compares strings. -/
def lexLe : List Char → List Char → Bool
  | [], _ => true
  | _ :: _, [] => false
  | a :: as, b :: bs =>
    if a.toNat < b.toNat then true
    else if a.toNat = b.toNat then lexLe as bs
    else false

/-- The Python `<=` order on strings. -/
def strLeProp (a b : String) : Prop := lexLe a.data b.data = true

instance : DecidableRel strLeProp :=
  fun a b => instDecidableEqBool (lexLe a.data b.data) true

/-- Python `str.endsWith` (used to model the `*.ext` glob patterns). -/
def strEndsWith (s suf : String) : Bool := List.isSuffixOf suf.data s.data

/-- Python `str.startswith`. -/
def strStartsWith (s p : String) : Bool := List.isPrefixOf p.data s.data

/-- Python `sorted` on strings (any comparison sort over a linear order
computes the same list). -/
def sortStrings (l : List String) : List String := List.insertionSort strLeProp l

/-! ### Order facts about `lexLe` -/

theorem lexLe_cons {a b : Char} {as bs : List Char} :
    lexLe (a :: as) (b :: bs) = true ↔
      (a.toNat < b.toNat ∨ (a.toNat = b.toNat ∧ lexLe as bs = true)) := by
  simp only [lexLe]
  split
  next h => simp [h]
  next h =>
    split
    next h2 => simp [h, h2]
    next h2 => simp [h, h2]

theorem lexLe_total : ∀ as bs : List Char, lexLe as bs = true ∨ lexLe bs as = true := by
  intro as
  induction as with
  | nil => intro bs; left; rfl
  | cons a as ih =>
    intro bs
    cases bs with
    | nil => right; rfl
    | cons b bs =>
      rw [lexLe_cons, lexLe_cons]
      rcases Nat.lt_trichotomy a.toNat b.toNat with h | h | h
      · exact Or.inl (Or.inl h)
      · rcases ih bs with h2 | h2
        · exact Or.inl (Or.inr ⟨h, h2⟩)
        · exact Or.inr (Or.inr ⟨h.symm, h2⟩)
      · exact Or.inr (Or.inl h)

theorem lexLe_trans : ∀ as bs cs : List Char,
    lexLe as bs = true → lexLe bs cs = true → lexLe as cs = true := by
  intro as
  induction as with
  | nil => intro bs cs _ _; rfl
  | cons a as ih =>
    intro bs cs h1 h2
    cases bs with
    | nil => simp [lexLe] at h1
    | cons b bs =>
      cases cs with
      | nil => simp [lexLe] at h2
      | cons c cs =>
        rw [lexLe_cons] at h1 h2 ⊢
        rcases h1 with h1 | ⟨h1e, h1r⟩ <;> rcases h2 with h2 | ⟨h2e, h2r⟩
        · exact Or.inl (Nat.lt_trans h1 h2)
        · exact Or.inl (h2e ▸ h1)
        · exact Or.inl (h1e.symm ▸ h2)
        · exact Or.inr ⟨h1e.trans h2e, ih bs cs h1r h2r⟩

instance : IsTotal String strLeProp := ⟨fun a b => lexLe_total a.data b.data⟩

instance : IsTrans String strLeProp :=
  ⟨fun a b c h1 h2 => lexLe_trans a.data b.data c.data h1 h2⟩

/-! ### Basic lemmas about the Python primitives -/

theorem pyInt_eq_floor (x : ℚ) (h : 0 ≤ x) : pyInt x = ⌊x⌋ := if_pos h

theorem pyInt_intCast (k : ℤ) : pyInt (k : ℚ) = k := by
  unfold pyInt
  split <;> simp

/-- Floor of a rational divided by 60 equals integer division of its floor. -/
theorem floor_div_sixty (s : ℚ) (hs : 0 ≤ s) : ⌊s / 60⌋ = ⌊s⌋ / 60 := by
  have h1 : (0 : ℚ) ≤ s / 60 := by positivity
  have h2 : ⌊s / 60⌋ = ((⌊s / 60⌋₊ : ℕ) : ℤ) := by
    rw [← Int.floor_toNat, Int.toNat_of_nonneg (Int.floor_nonneg.2 h1)]
  have h3 : ⌊s⌋ = ((⌊s⌋₊ : ℕ) : ℤ) := by
    rw [← Int.floor_toNat, Int.toNat_of_nonneg (Int.floor_nonneg.2 hs)]
  have h4 : ⌊s / 60⌋₊ = ⌊s⌋₊ / 60 := by
    have := Nat.floor_div_nat s 60
    simpa using this
  rw [h2, h3, h4]
  push_cast
  norm_num

/-! ### Player state (the mutable fields of `VideoSegmentAnnotator`) -/

/-- The mutable state of the annotator relevant to playback, seeking and the
segment ledger (fields of `VideoSegmentAnnotator.__init__`). -/
structure PlayerState where
  video_files : List String
  current_video_index : ℤ
  current_frame : ℤ
  total_frames : ℤ
  fps : ℚ
  is_playing : Bool
  segments : List (ℚ × ℚ)
  temp_start_time : Option ℚ
deriving DecidableEq

/-- `self.current_frame / self.fps if self.fps > 0 else 0`, the expression used
by `mark_start`/`mark_end` and the time display. -/
def current_time (s : PlayerState) : ℚ :=
  if 0 < s.fps then (s.current_frame : ℚ) / s.fps else 0

/-- `format_time` (video_annotator.py lines 290-294):
`minutes = int(seconds // 60); seconds = int(seconds % 60)` rendered as
`f"{minutes:02d}:{seconds:02d}"`. -/
def format_time (seconds : ℚ) : String :=
  padZeros 2 (pyInt (pyFloorDiv seconds 60)) ++ ":" ++ padZeros 2 (pyInt (pyMod seconds 60))

/-- `seek_forward` (lines 319-323): `skip_frames = int(5 * self.fps);
self.current_frame = min(self.current_frame + skip_frames, self.total_frames - 1)`. -/
def seek_forward (s : PlayerState) : PlayerState :=
  { s with current_frame := min (s.current_frame + pyInt (5 * s.fps)) (s.total_frames - 1) }

/-- `seek_backward` (lines 325-329): `self.current_frame =
max(self.current_frame - skip_frames, 0)`. -/
def seek_backward (s : PlayerState) : PlayerState :=
  { s with current_frame := max (s.current_frame - pyInt (5 * s.fps)) 0 }

/-- `on_progress_change` (lines 331-336): only when not playing,
`self.current_frame = int(progress / 100 * self.total_frames)`. -/
def on_progress_change (s : PlayerState) (value : ℚ) : PlayerState :=
  if s.is_playing then s
  else { s with current_frame := pyInt (value / 100 * (s.total_frames : ℚ)) }

/-- `mark_start` (lines 338-342): records the current time as the pending
start, silently overwriting any previous pending mark. -/
def mark_start (s : PlayerState) : PlayerState :=
  { s with temp_start_time := some (current_time s) }

/-- Outcome reported by `mark_end` (warning boxes vs. the success status line). -/
inductive MarkEndResult
  | noStartMarked
  | invalidRange
  | added
deriving DecidableEq

/-- `mark_end` (lines 344-361): fails when no start is marked, fails when
`current_time <= self.temp_start_time`, otherwise appends
`(temp_start_time, current_time)` and clears the pending mark. -/
def mark_end (s : PlayerState) : PlayerState × MarkEndResult :=
  match s.temp_start_time with
  | none => (s, .noStartMarked)
  | some t0 =>
    let ct := current_time s
    if ct ≤ t0 then (s, .invalidRange)
    else ({ s with segments := s.segments ++ [(t0, ct)], temp_start_time := none }, .added)

/-- Outcome reported by `clear_all_segments`. -/
inductive ClearAllResult
  | cleared (count : ℕ)
  | nothingToClear
deriving DecidableEq

/-- `clear_all_segments` (lines 372-381): when the segment list is non-empty it
empties the list and clears the pending mark; when it is empty it only shows
an info box (the pending mark is left untouched). -/
def clear_all_segments (s : PlayerState) : PlayerState × ClearAllResult :=
  match s.segments with
  | [] => (s, .nothingToClear)
  | _ :: _ =>
    ({ s with segments := [], temp_start_time := none }, .cleared s.segments.length)

/-- Properties delivered by `cv2.VideoCapture` for the newly selected video
(`isOpened`, `CAP_PROP_FRAME_COUNT`, `CAP_PROP_FPS`). -/
structure VideoProps where
  opened : Bool
  total_frames : ℤ
  fps : ℚ
deriving DecidableEq

/-- `load_current_video` (lines 215-250): returns unchanged when the video list
is empty or the capture fails to open; otherwise installs the new video's
properties and resets frame 0, paused, empty ledger, no pending mark. -/
def load_current_video (s : PlayerState) (props : VideoProps) : PlayerState :=
  match s.video_files with
  | [] => s
  | _ :: _ =>
    if props.opened = false then s
    else
      { s with
        total_frames := props.total_frames
        fps := props.fps
        current_frame := 0
        is_playing := false
        segments := []
        temp_start_time := none }

/-- `previous_video` (lines 398-402). -/
def previous_video (s : PlayerState) (props : VideoProps) : PlayerState :=
  if s.video_files ≠ [] ∧ 0 < s.current_video_index then
    load_current_video { s with current_video_index := s.current_video_index - 1 } props
  else s

/-- `next_video` (lines 404-408). -/
def next_video (s : PlayerState) (props : VideoProps) : PlayerState :=
  if s.video_files ≠ [] ∧ s.current_video_index < (s.video_files.length : ℤ) - 1 then
    load_current_video { s with current_video_index := s.current_video_index + 1 } props
  else s

/-- The glob patterns of `load_videos` (line 197). -/
def video_extensions : List String := [".mp4", ".avi", ".mov", ".MOV"]

/-- `load_videos` (lines 192-213) restricted to computing `self.video_files`:
for each extension, take the directory entries matching the glob `*ext`
excluding dot files, then sort.  (The code skips the sort when the list is
empty; sorting the empty list is the empty list, so the result is the same.) -/
def load_videos (dirEntries : List String) : List String :=
  let files := video_extensions.flatMap (fun ext =>
    dirEntries.filter (fun n => strEndsWith n ext && !(strStartsWith n ".")))
  sortStrings files

/-! ### Segment exporter (`create_segment_video`, `extract_segment_frames`) -/

/-- The sequential decode loop of `create_segment_video` (lines 460-467): the
capture is positioned at `pos`; each `cap.read()` succeeds exactly while the
position is a valid index of the source (`0 ≤ pos < avail`), and the loop
breaks on the first failed read.  Returns the indices of the frames written
to the clip; the fuel is the size of `range(start_frame, end_frame)`. -/
def readLoop (avail : ℕ) : ℤ → ℕ → List ℤ
  | _, 0 => []
  | pos, fuel + 1 =>
    if 0 ≤ pos ∧ pos < (avail : ℤ) then pos :: readLoop avail (pos + 1) fuel else []

/-- `create_segment_video` (lines 441-470): `start_frame = int(start_time*fps)`,
`end_frame = int(end_time*fps)`, seek to `start_frame`, then read/write frames
over `range(start_frame, end_frame)`, breaking early if the source runs out.
`avail` is the source's frame count; the result is the list of source frame
indices re-encoded into the clip. -/
def create_segment_video (start_time end_time fps : ℚ) (avail : ℕ) : List ℤ :=
  let start_frame := pyInt (start_time * fps)
  let end_frame := pyInt (end_time * fps)
  readLoop avail start_frame (end_frame - start_frame).toNat

/-- The `while True` loop of `extract_segment_frames` (lines 486-495): one
image per decoded clip frame, named `f"frame_{frame_count+1:04d}.jpg"`. -/
def extract_frames_loop : List ℤ → ℕ → List String
  | [], _ => []
  | _ :: rest, frame_count =>
    ("frame_" ++ padZeros 4 ((frame_count : ℤ) + 1) ++ ".jpg")
      :: extract_frames_loop rest (frame_count + 1)

/-- `extract_segment_frames` (lines 472-497) restricted to the image files it
writes: the clip is decoded from its start with `frame_count` starting at 0. -/
def extract_segment_frames (clip : List ℤ) : List String :=
  extract_frames_loop clip 0

/-! ### Dataset unifier (`create_unified_dataset`) -/

/-- A file inside a segment frame folder: its name and whether the two copy
attempts (`shutil.copy2`, then `shutil.copy`) would succeed for it. -/
structure SegFrameFile where
  fname : String
  copy2_ok : Bool
  copy_ok : Bool
deriving DecidableEq

/-- An immediate subdirectory of `segments/frames`. -/
structure SegFolder where
  name : String
  files : List SegFrameFile
deriving DecidableEq

/-- An immediate entry of the `segments/frames` directory. -/
inductive FsEntry
  | file (name : String)
  | dir (folder : SegFolder)
deriving DecidableEq

/-- `f.is_dir()` as a partial projection. -/
def FsEntry.dirFolder : FsEntry → Option SegFolder
  | .file _ => none
  | .dir folder => some folder

/-- The glob `frame_*.jpg` of line 557. -/
def frameGlob (f : SegFrameFile) : Bool :=
  strStartsWith f.fname "frame_" && strEndsWith f.fname ".jpg"

/-- Python `<=` on frame files sorted by name (line 558). -/
def fileLeProp (a b : SegFrameFile) : Prop := strLeProp a.fname b.fname

instance : DecidableRel fileLeProp :=
  fun a b => instDecidableEqBool (lexLe a.fname.data b.fname.data) true

/-- Python `<=` on segment folders sorted by name (line 533; the folders share
one parent directory, so comparing `Path` objects compares the names). -/
def folderLeProp (a b : SegFolder) : Prop := strLeProp a.name b.name

instance : DecidableRel folderLeProp :=
  fun a b => instDecidableEqBool (lexLe a.name.data b.name.data) true

/-- The per-frame copy loop (lines 574-592): `shutil.copy2`, on failure retry
with `shutil.copy`, on a second failure skip the frame.  Returns the names of
the files created in the unified images directory,
`f"{segment_name}_{frame_file.name}"` each. -/
def copyFramesLoop (segment_name : String) : List SegFrameFile → List String
  | [] => []
  | f :: rest =>
    let new_frame_name := segment_name ++ "_" ++ f.fname
    if f.copy2_ok then new_frame_name :: copyFramesLoop segment_name rest
    else if f.copy_ok then new_frame_name :: copyFramesLoop segment_name rest
    else copyFramesLoop segment_name rest

/-- The `segments` entries of `dataset_summary.json` (metadata embedding is
I/O bookkeeping and is not modelled). -/
structure SegmentInfo where
  segment_name : String
  frames_count : ℕ
deriving DecidableEq

/-- `dataset_summary.json` (lines 543-548, 602-603). -/
structure DatasetSummary where
  total_frames : ℕ
  total_segments : ℕ
  segments : List SegmentInfo
deriving DecidableEq

/-- The folder loop of lines 551-600: accumulates `total_frames_copied`, the
summary's `segments` list and the copied image names, in iteration order. -/
def processFolders : List SegFolder → ℕ × List SegmentInfo × List String
  | [] => (0, [], [])
  | fo :: rest =>
    let frame_files := List.insertionSort fileLeProp (fo.files.filter frameGlob)
    let copied := copyFramesLoop fo.name frame_files
    let r := processFolders rest
    (copied.length + r.1, ⟨fo.name, copied.length⟩ :: r.2.1, copied ++ r.2.2)

/-- How a unification run ends. -/
inductive UnifyOutcome
  | precondFail
  | noFolders
  | ok (summary : DatasetSummary) (copiedImages : List String)
deriving DecidableEq

/-- A unification run: the output directories created (in creation order) and
the outcome. -/
structure UnifyRun where
  created_dirs : List String
  outcome : UnifyOutcome
deriving DecidableEq

/-- `create_unified_dataset` (lines 516-635).  `framesDir` is `none` when
`segments/frames` does not exist, otherwise the list of its entries.  The
early return of line 520 fires when the directory is missing **or empty**;
the three `mkdir` calls of lines 525-529 then run; the `segment_folders`
emptiness check of line 535 only fires afterwards. -/
def create_unified_dataset (framesDir : Option (List FsEntry)) : UnifyRun :=
  match framesDir with
  | none => ⟨[], .precondFail⟩
  | some entries =>
    if entries.isEmpty then ⟨[], .precondFail⟩
    else
      let created := ["unified_dataset", "unified_dataset/images", "unified_dataset/metadata"]
      let segment_folders :=
        List.insertionSort folderLeProp (entries.filterMap FsEntry.dirFolder)
      if segment_folders.isEmpty then ⟨created, .noFolders⟩
      else
        let r := processFolders segment_folders
        ⟨created, .ok ⟨r.1, segment_folders.length, r.2.1⟩ r.2.2⟩

/-! ### Theorems -/

/-- C1: `markEnd` fails with NoStartMarked when no pending mark exists, fails
with InvalidRange when the current time (`currentFrame/frameRate`) is less
than or equal to the pending start time, and otherwise appends the pair
`(pendingStart, currentTime)` at the end of the segment list (append order)
and clears the pending mark; in both failure cases the state (in particular
the segment list and the pending mark) is unchanged. -/
theorem markEnd_spec (s : PlayerState) :
    (s.temp_start_time = none → mark_end s = (s, MarkEndResult.noStartMarked)) ∧
    (∀ t0, s.temp_start_time = some t0 → current_time s ≤ t0 →
      mark_end s = (s, MarkEndResult.invalidRange)) ∧
    (∀ t0, s.temp_start_time = some t0 → t0 < current_time s →
      mark_end s =
        ({ s with segments := s.segments ++ [(t0, current_time s)],
                  temp_start_time := none }, MarkEndResult.added)) := by
  refine ⟨fun h => ?_, fun t0 h hle => ?_, fun t0 h hlt => ?_⟩
  · simp [mark_end, h]
  · simp only [mark_end, h]
    rw [if_pos hle]
  · simp only [mark_end, h]
    rw [if_neg (not_le.mpr hlt)]

/-- Witness for C1: all three branches exercised at concrete states
(fps 30; frame 0 gives time 0, frame 90 gives time 3). -/
theorem markEnd_spec_witness :
    mark_end ⟨[], 0, 0, 100, 30, false, [], none⟩ =
      (⟨[], 0, 0, 100, 30, false, [], none⟩, MarkEndResult.noStartMarked) ∧
    mark_end ⟨[], 0, 0, 100, 30, false, [], some 5⟩ =
      (⟨[], 0, 0, 100, 30, false, [], some 5⟩, MarkEndResult.invalidRange) ∧
    mark_end ⟨[], 0, 90, 100, 30, false, [], some 1⟩ =
      (⟨[], 0, 90, 100, 30, false, [(1, 3)], none⟩, MarkEndResult.added) := by
  refine ⟨(markEnd_spec _).1 rfl, (markEnd_spec _).2.1 5 rfl ?_, ?_⟩
  · norm_num [current_time]
  · have h := (markEnd_spec ⟨[], 0, 90, 100, 30, false, [], some 1⟩).2.2 1 rfl
      (by norm_num [current_time])
    norm_num [current_time] at h
    exact h

/-- C5: for every non-negative number of seconds `s`, `format_time s` is the
MM:SS string obtained by truncating `s` to an integer (not rounding) before
splitting into minutes and seconds, each zero-padded to two digits; in
particular `format_time 0 = "00:00"`, `format_time 65 = "01:05"` and
`format_time 59.9 = "00:59"`. -/
theorem format_time_spec :
    (∀ s : ℚ, 0 ≤ s →
      format_time s = padZeros 2 (⌊s⌋ / 60) ++ ":" ++ padZeros 2 (⌊s⌋ % 60)) ∧
    format_time 0 = "00:00" ∧ format_time 65 = "01:05" ∧
    format_time (599 / 10) = "00:59" := by
  have gen : ∀ s : ℚ, 0 ≤ s →
      format_time s = padZeros 2 (⌊s⌋ / 60) ++ ":" ++ padZeros 2 (⌊s⌋ % 60) := by
    intro s hs
    unfold format_time pyFloorDiv pyMod
    rw [pyInt_intCast]
    have h1 : (0 : ℚ) ≤ s - 60 * ((⌊s / 60⌋ : ℤ) : ℚ) := by
      have hf : ((⌊s / 60⌋ : ℤ) : ℚ) ≤ s / 60 := Int.floor_le (s / 60)
      have := mul_le_mul_of_nonneg_left hf (by norm_num : (0 : ℚ) ≤ 60)
      have h60 : (60 : ℚ) * (s / 60) = s := by ring
      linarith
    have hmod : pyInt (s - 60 * ((⌊s / 60⌋ : ℤ) : ℚ)) = ⌊s⌋ % 60 := by
      rw [pyInt_eq_floor _ h1]
      have hcast : s - 60 * ((⌊s / 60⌋ : ℤ) : ℚ) = s - ((60 * ⌊s / 60⌋ : ℤ) : ℚ) := by
        push_cast
        ring
      rw [hcast, Int.floor_sub_int, floor_div_sixty s hs]
      omega
    rw [hmod, floor_div_sixty s hs]
  have h0 : ⌊(0 : ℚ)⌋ = 0 := Int.floor_zero
  have h65 : ⌊(65 : ℚ)⌋ = 65 := by
    rw [Int.floor_eq_iff]; norm_num
  have h599 : ⌊(599 / 10 : ℚ)⌋ = 59 := by
    rw [Int.floor_eq_iff]; norm_num
  refine ⟨gen, ?_, ?_, ?_⟩
  · rw [gen 0 le_rfl, h0]
    decide
  · rw [gen 65 (by norm_num), h65]
    decide
  · rw [gen (599 / 10) (by norm_num), h599]
    decide

/-- Witness for C5: the general statement applied at 119/2 = 59.5 seconds. -/
theorem format_time_spec_witness :
    format_time (119 / 2) =
      padZeros 2 (⌊(119 / 2 : ℚ)⌋ / 60) ++ ":" ++ padZeros 2 (⌊(119 / 2 : ℚ)⌋ % 60) :=
  format_time_spec.1 (119 / 2) (by norm_num)

/-- C8 counterexample: with an empty segment list and pending mark `some 1`,
`clear_all_segments` leaves the pending mark in place, contradicting the claim
that clearAll clears an existing pending mark even when the list is empty. -/
theorem clear_all_cex :
    ((clear_all_segments ⟨[], 0, 0, 100, 30, false, [], some 1⟩).1).temp_start_time = some 1 ∧
    ((clear_all_segments ⟨[], 0, 0, 100, 30, false, [], some 1⟩).1).temp_start_time ≠ none := by
  exact ⟨rfl, by simp [clear_all_segments]⟩

/-- C8 (amended): `clear_all_segments` empties the segment list and clears the
pending mark when the segment list is non-empty; when the list is already
empty it is a reported no-op that leaves the whole state — including an
existing pending mark — unchanged. -/
theorem clear_all_amended (s : PlayerState) :
    (s.segments = [] → clear_all_segments s = (s, ClearAllResult.nothingToClear)) ∧
    (s.segments ≠ [] → clear_all_segments s =
      ({ s with segments := [], temp_start_time := none },
        ClearAllResult.cleared s.segments.length)) := by
  constructor
  · intro h
    simp [clear_all_segments, h]
  · intro h
    obtain ⟨a, l, hl⟩ := List.exists_cons_of_ne_nil h
    simp [clear_all_segments, hl]

/-- Witness for C8 (amended): both branches at concrete states. -/
theorem clear_all_amended_witness :
    clear_all_segments ⟨[], 0, 0, 100, 30, false, [], some 2⟩ =
      (⟨[], 0, 0, 100, 30, false, [], some 2⟩, ClearAllResult.nothingToClear) ∧
    clear_all_segments ⟨[], 0, 0, 100, 30, false, [(1, 2)], some 3⟩ =
      (⟨[], 0, 0, 100, 30, false, [], none⟩, ClearAllResult.cleared 1) := by
  exact ⟨(clear_all_amended _).1 rfl, (clear_all_amended _).2 (by simp)⟩

/-- C9: whenever a new video is actually loaded (directly, or through
previous/next video), the playback state is reset to frame 0 and paused, the
segment list is emptied (discarded, not persisted), and the pending mark is
cleared. -/
theorem load_video_reset_spec (s : PlayerState) (props : VideoProps)
    (hv : s.video_files ≠ []) (hopen : props.opened = true) :
    ((load_current_video s props).current_frame = 0 ∧
      (load_current_video s props).is_playing = false ∧
      (load_current_video s props).segments = [] ∧
      (load_current_video s props).temp_start_time = none) ∧
    (0 < s.current_video_index →
      (previous_video s props).current_frame = 0 ∧
      (previous_video s props).is_playing = false ∧
      (previous_video s props).segments = [] ∧
      (previous_video s props).temp_start_time = none) ∧
    (s.current_video_index < (s.video_files.length : ℤ) - 1 →
      (next_video s props).current_frame = 0 ∧
      (next_video s props).is_playing = false ∧
      (next_video s props).segments = [] ∧
      (next_video s props).temp_start_time = none) := by
  obtain ⟨a, l, hl⟩ := List.exists_cons_of_ne_nil hv
  refine ⟨?_, fun hidx => ?_, fun hidx => ?_⟩
  · simp [load_current_video, hl, hopen]
  · simp only [previous_video]
    rw [if_pos ⟨hv, hidx⟩]
    simp [load_current_video, hl, hopen]
  · simp only [next_video]
    rw [if_pos ⟨hv, hidx⟩]
    simp [load_current_video, hl, hopen]

/-- Witness for C9: a concrete dirty state (mid-playback, pending mark, marked
segments) reset by loading the second of three videos. -/
theorem load_video_reset_witness :
    (load_current_video ⟨["a.mp4", "b.mp4", "c.mp4"], 1, 42, 100, 30, true, [(1, 2)], some 3⟩
        ⟨true, 200, 25⟩).current_frame = 0 ∧
    (load_current_video ⟨["a.mp4", "b.mp4", "c.mp4"], 1, 42, 100, 30, true, [(1, 2)], some 3⟩
        ⟨true, 200, 25⟩).is_playing = false ∧
    (load_current_video ⟨["a.mp4", "b.mp4", "c.mp4"], 1, 42, 100, 30, true, [(1, 2)], some 3⟩
        ⟨true, 200, 25⟩).segments = [] ∧
    (load_current_video ⟨["a.mp4", "b.mp4", "c.mp4"], 1, 42, 100, 30, true, [(1, 2)], some 3⟩
        ⟨true, 200, 25⟩).temp_start_time = none :=
  (load_video_reset_spec ⟨["a.mp4", "b.mp4", "c.mp4"], 1, 42, 100, 30, true, [(1, 2)], some 3⟩
    ⟨true, 200, 25⟩ (by simp) rfl).1

/-- Evaluation of `on_progress_change` while stopped. -/
theorem on_progress_change_stopped (s : PlayerState) (v : ℚ) (h : s.is_playing = false) :
    on_progress_change s v =
      { s with current_frame := pyInt (v / 100 * (s.total_frames : ℚ)) } := by
  simp [on_progress_change, h]

/-- C6 counterexample: with 10 frames and fraction `p = 1` (progress value
100), the code sets the current frame to `int(100/100*10) = 10`, which is not
strictly less than the frame count and differs from the claimed clamped value;
and with 25 frames at `p = 3/50` the code truncates `1.5` to 1 while the
claimed `round` with clamp gives 2. -/
theorem progress_scrub_cex :
    (on_progress_change ⟨[], 0, 0, 10, 30, false, [], none⟩ (1 * 100)).current_frame = 10 ∧
    ¬ ((on_progress_change ⟨[], 0, 0, 10, 30, false, [], none⟩ (1 * 100)).current_frame <
        (10 : ℤ)) ∧
    (on_progress_change ⟨[], 0, 0, 25, 30, false, [], none⟩ (3 / 50 * 100)).current_frame
      = 1 ∧
    min (max (round ((3 / 50 : ℚ) * 25)) 0) (25 - 1) = 2 := by
  have h1 : (on_progress_change ⟨[], 0, 0, 10, 30, false, [], none⟩ (1 * 100)).current_frame
      = 10 := by
    rw [on_progress_change_stopped _ _ rfl]
    show pyInt (1 * 100 / 100 * (((10 : ℤ) : ℚ))) = 10
    rw [show (1 * 100 / 100 * (((10 : ℤ) : ℚ)) : ℚ) = ((10 : ℤ) : ℚ) by push_cast; norm_num]
    exact pyInt_intCast 10
  refine ⟨h1, by rw [h1]; norm_num, ?_, ?_⟩
  · rw [on_progress_change_stopped _ _ rfl]
    show pyInt (3 / 50 * 100 / 100 * (((25 : ℤ) : ℚ))) = 1
    rw [show (3 / 50 * 100 / 100 * (((25 : ℤ) : ℚ)) : ℚ) = 3 / 2 by push_cast; norm_num]
    rw [pyInt_eq_floor _ (by norm_num), Int.floor_eq_iff]
    norm_num
  · rw [show ((3 / 50 : ℚ) * 25) = 3 / 2 by norm_num, round_eq,
      show (3 / 2 + 1 / 2 : ℚ) = ((2 : ℤ) : ℚ) by norm_num, Int.floor_intCast]
    decide

/-- C6 (amended): for every fraction `p ≥ 0`, the absolute scrub — honored
only while playback is stopped — sets the current frame index to
`⌊p * frameCount⌋` (truncation, not rounding) with no clamping; for
`p ∈ [0,1]` the result is therefore at most `frameCount`, and it equals
`frameCount` at `p = 1`, so it is not always strictly below `frameCount`. -/
theorem progress_scrub_amended (s : PlayerState) (p : ℚ) :
    (s.is_playing = true → on_progress_change s (p * 100) = s) ∧
    (s.is_playing = false → 0 ≤ p → 0 ≤ s.total_frames →
      (on_progress_change s (p * 100)).current_frame = ⌊p * (s.total_frames : ℚ)⌋ ∧
      (p ≤ 1 → (on_progress_change s (p * 100)).current_frame ≤ s.total_frames)) := by
  constructor
  · intro h
    simp [on_progress_change, h]
  · intro h hp ht
    have hcast : (0 : ℚ) ≤ (s.total_frames : ℚ) := by exact_mod_cast ht
    have heq : (on_progress_change s (p * 100)).current_frame
        = ⌊p * (s.total_frames : ℚ)⌋ := by
      rw [on_progress_change_stopped s _ h]
      show pyInt (p * 100 / 100 * (s.total_frames : ℚ)) = _
      rw [show p * 100 / 100 * (s.total_frames : ℚ) = p * (s.total_frames : ℚ) by ring,
        pyInt_eq_floor _ (mul_nonneg hp hcast)]
    refine ⟨heq, fun hp1 => ?_⟩
    rw [heq]
    have hle : p * (s.total_frames : ℚ) ≤ ((s.total_frames : ℤ) : ℚ) := by
      nlinarith
    calc ⌊p * (s.total_frames : ℚ)⌋ ≤ ⌊((s.total_frames : ℤ) : ℚ)⌋ := Int.floor_le_floor hle
      _ = s.total_frames := Int.floor_intCast _

/-- Witness for C6 (amended): `p = 1/2` on a stopped 10-frame state. -/
theorem progress_scrub_amended_witness :
    (on_progress_change ⟨[], 0, 0, 10, 30, false, [], none⟩ (1 / 2 * 100)).current_frame =
      ⌊(1 / 2 : ℚ) * (((10 : ℤ) : ℚ))⌋ ∧
    (on_progress_change ⟨[], 0, 0, 10, 30, false, [], none⟩ (1 / 2 * 100)).current_frame ≤
      (10 : ℤ) :=
  have h := (progress_scrub_amended ⟨[], 0, 0, 10, 30, false, [], none⟩ (1 / 2)).2
    rfl (by norm_num) (by norm_num)
  ⟨h.1, h.2 (by norm_num)⟩

/-- C7 counterexample: `seek_forward` on a state that is currently playing
still moves the current frame (the claim says a seek during playback has no
effect), and at frame rate 29.97 the frame delta is `int(149.85) = 149`, not
`round(149.85) = 150` as claimed. -/
theorem seek_relative_cex :
    (seek_forward ⟨[], 0, 0, 1000, 30, true, [], none⟩).current_frame = 150 ∧
    seek_forward ⟨[], 0, 0, 1000, 30, true, [], none⟩ ≠
      ⟨[], 0, 0, 1000, 30, true, [], none⟩ ∧
    pyInt (5 * (2997 / 100 : ℚ)) = 149 ∧
    round (5 * (2997 / 100 : ℚ)) = 150 := by
  have h1 : (seek_forward ⟨[], 0, 0, 1000, 30, true, [], none⟩).current_frame = 150 := by
    show min (0 + pyInt (5 * (30 : ℚ))) (1000 - 1) = 150
    rw [show (5 * (30 : ℚ)) = ((150 : ℤ) : ℚ) by norm_num, pyInt_intCast]
    decide
  refine ⟨h1, fun heq => ?_, ?_, ?_⟩
  · rw [heq] at h1
    simp at h1
  · rw [pyInt_eq_floor _ (by norm_num), Int.floor_eq_iff]
    norm_num
  · rw [round_eq, show (5 * (2997 / 100 : ℚ) + 1 / 2) = 15035 / 100 by norm_num,
      Int.floor_eq_iff]
    norm_num

/-- C7 (amended): the 5-second relative seek uses the frame delta
`int(5 * frameRate)` — truncation, not rounding; `seek_forward` clamps the
result above by `frameCount - 1` and `seek_backward` clamps below by 0; the
seek is applied unconditionally, regardless of the playback state (there is
no only-while-stopped guard). -/
theorem seek_relative_amended (s : PlayerState) (hfps : 0 ≤ s.fps) :
    (seek_forward s).current_frame = min (s.current_frame + ⌊5 * s.fps⌋) (s.total_frames - 1) ∧
    (seek_backward s).current_frame = max (s.current_frame - ⌊5 * s.fps⌋) 0 ∧
    0 ≤ (seek_backward s).current_frame ∧
    (seek_forward s).current_frame ≤ s.total_frames - 1 ∧
    (seek_forward s).is_playing = s.is_playing ∧
    (seek_backward s).is_playing = s.is_playing := by
  have h5 : (0 : ℚ) ≤ 5 * s.fps := by positivity
  refine ⟨?_, ?_, le_max_right _ _, min_le_right _ _, rfl, rfl⟩
  · show min (s.current_frame + pyInt (5 * s.fps)) (s.total_frames - 1) = _
    rw [pyInt_eq_floor _ h5]
  · show max (s.current_frame - pyInt (5 * s.fps)) 0 = _
    rw [pyInt_eq_floor _ h5]

/-- Witness for C7 (amended): a stopped and a playing state (the clamp facts
hold in both; the playing state shows the seek applies during playback). -/
theorem seek_relative_amended_witness :
    0 ≤ (seek_backward ⟨[], 0, 7, 100, 30, false, [], none⟩).current_frame ∧
    (seek_forward ⟨[], 0, 7, 100, 30, false, [], none⟩).current_frame ≤ 100 - 1 ∧
    (seek_forward ⟨[], 0, 7, 100, 30, true, [], none⟩).current_frame =
      min (7 + ⌊5 * (30 : ℚ)⌋) (100 - 1) :=
  ⟨(seek_relative_amended ⟨[], 0, 7, 100, 30, false, [], none⟩ (by norm_num)).2.2.1,
    (seek_relative_amended ⟨[], 0, 7, 100, 30, false, [], none⟩ (by norm_num)).2.2.2.1,
    (seek_relative_amended ⟨[], 0, 7, 100, 30, true, [], none⟩ (by norm_num)).1⟩

/-- The integer interval `[p, p + n)` as a list, used to state which source
frames a clip contains. -/
def rangeZ (p : ℤ) (n : ℕ) : List ℤ := (List.range n).map (fun (k : ℕ) => p + (k : ℤ))

theorem rangeZ_succ (p : ℤ) (n : ℕ) : rangeZ p (n + 1) = p :: rangeZ (p + 1) n := by
  simp only [rangeZ, List.range_succ_eq_map, List.map_cons, Nat.cast_zero, add_zero,
    List.map_map]
  congr 1
  apply List.map_congr_left
  intro k _
  simp only [Function.comp_apply]
  push_cast
  ring

theorem rangeZ_length (p : ℤ) (n : ℕ) : (rangeZ p n).length = n := by
  simp [rangeZ]

/-- The decode loop reads exactly the valid indices from `pos` on, bounded by
the fuel and by the end of the source. -/
theorem readLoop_eq (avail : ℕ) :
    ∀ (fuel : ℕ) (pos : ℤ), 0 ≤ pos →
      readLoop avail pos fuel = rangeZ pos (min fuel ((avail : ℤ) - pos).toNat) := by
  intro fuel
  induction fuel with
  | zero =>
    intro pos _
    simp [readLoop, rangeZ]
  | succ n ih =>
    intro pos h
    unfold readLoop
    by_cases hlt : pos < (avail : ℤ)
    · rw [if_pos ⟨h, hlt⟩, ih (pos + 1) (by omega)]
      have hmin : min (n + 1) ((avail : ℤ) - pos).toNat
          = min n ((avail : ℤ) - (pos + 1)).toNat + 1 := by omega
      rw [hmin, rangeZ_succ]
    · rw [if_neg (fun hc => hlt hc.2)]
      have h0 : ((avail : ℤ) - pos).toNat = 0 := by omega
      simp [h0, rangeZ]

/-- The extraction loop numbers its output sequentially from the running
counter. -/
theorem extract_frames_loop_eq :
    ∀ (clip : List ℤ) (c : ℕ),
      extract_frames_loop clip c = (List.range clip.length).map
        (fun (k : ℕ) => "frame_" ++ padZeros 4 ((c : ℤ) + (k : ℤ) + 1) ++ ".jpg") := by
  intro clip
  induction clip with
  | nil =>
    intro c
    simp [extract_frames_loop]
  | cons x rest ih =>
    intro c
    simp only [extract_frames_loop, List.length_cons, List.range_succ_eq_map, List.map_cons,
      Nat.cast_zero, add_zero, List.map_map]
    congr 1
    rw [ih (c + 1)]
    apply List.map_congr_left
    intro k _
    simp only [Function.comp_apply]
    congr 2
    push_cast
    ring_nf

/-- C4: for a segment `(start, end)` exported from a source with `avail`
frames at frame rate `fps`, clip extraction computes
`startFrame = ⌊start*fps⌋` and `endFrame = ⌊end*fps⌋` and decodes exactly the
frames in `[startFrame, min endFrame avail)` — i.e. all of
`[startFrame, endFrame)`, truncated without error if the source ends early —
and frame extraction writes one image per decoded clip frame named
`frame_0001.jpg`, `frame_0002.jpg`, … (4-digit zero-padded, 1-indexed, no
gaps). -/
theorem segment_export_spec (start_time end_time fps : ℚ) (avail : ℕ)
    (hst : 0 ≤ start_time) (hse : start_time ≤ end_time) (hfps : 0 ≤ fps) :
    create_segment_video start_time end_time fps avail =
      rangeZ ⌊start_time * fps⌋
        ((min ⌊end_time * fps⌋ (avail : ℤ) - ⌊start_time * fps⌋).toNat) ∧
    (⌊end_time * fps⌋ ≤ (avail : ℤ) →
      create_segment_video start_time end_time fps avail =
        rangeZ ⌊start_time * fps⌋ ((⌊end_time * fps⌋ - ⌊start_time * fps⌋).toNat)) ∧
    extract_segment_frames (create_segment_video start_time end_time fps avail) =
      (List.range (create_segment_video start_time end_time fps avail).length).map
        (fun (k : ℕ) => "frame_" ++ padZeros 4 ((k : ℤ) + 1) ++ ".jpg") := by
  have h0 : (0 : ℚ) ≤ start_time * fps := mul_nonneg hst hfps
  have h1 : (0 : ℚ) ≤ end_time * fps := mul_nonneg (hst.trans hse) hfps
  have hmono : ⌊start_time * fps⌋ ≤ ⌊end_time * fps⌋ :=
    Int.floor_le_floor (mul_le_mul_of_nonneg_right hse hfps)
  have hsf : (0 : ℤ) ≤ ⌊start_time * fps⌋ := Int.floor_nonneg.2 h0
  have hcsv : create_segment_video start_time end_time fps avail =
      rangeZ ⌊start_time * fps⌋
        ((min ⌊end_time * fps⌋ (avail : ℤ) - ⌊start_time * fps⌋).toNat) := by
    unfold create_segment_video
    rw [pyInt_eq_floor _ h0, pyInt_eq_floor _ h1, readLoop_eq avail _ _ hsf]
    congr 1
    omega
  refine ⟨hcsv, fun hav => ?_, ?_⟩
  · rw [hcsv]
    congr 1
    omega
  · unfold extract_segment_frames
    rw [extract_frames_loop_eq]
    apply List.map_congr_left
    intro k _
    congr 2
    push_cast
    ring_nf

/-- Witness for C4: segment `(2.0, 4.0)` on a 30 fps source with 200 frames
(no early end-of-stream) yields the 60 source frames `[60, 120)` and exactly
60 files `frame_0001.jpg` … `frame_0060.jpg`. -/
theorem segment_export_witness :
    create_segment_video 2 4 30 200 = rangeZ 60 60 ∧
    (create_segment_video 2 4 30 200).length = 60 ∧
    extract_segment_frames (create_segment_video 2 4 30 200) =
      (List.range 60).map (fun (k : ℕ) => "frame_" ++ padZeros 4 ((k : ℤ) + 1) ++ ".jpg") := by
  have h := segment_export_spec 2 4 30 200 (by norm_num) (by norm_num) (by norm_num)
  have hf1 : ⌊(2 * 30 : ℚ)⌋ = 60 := by
    rw [show (2 * 30 : ℚ) = ((60 : ℤ) : ℚ) by norm_num, Int.floor_intCast]
  have hf2 : ⌊(4 * 30 : ℚ)⌋ = 120 := by
    rw [show (4 * 30 : ℚ) = ((120 : ℤ) : ℚ) by norm_num, Int.floor_intCast]
  have hclip : create_segment_video 2 4 30 200 = rangeZ 60 60 := by
    rw [h.2.1 (by rw [hf2]; norm_num), hf1, hf2]
    rw [show ((120 : ℤ) - 60).toNat = 60 from rfl]
  refine ⟨hclip, ?_, ?_⟩
  · rw [hclip, rangeZ_length]
  · rw [h.2.2, hclip, rangeZ_length]

/-- The copy loop keeps exactly the frames whose copy eventually succeeds and
names each `<segmentFolderName>_<originalFrameName>`. -/
theorem copyFramesLoop_eq (segment_name : String) :
    ∀ l : List SegFrameFile,
      copyFramesLoop segment_name l =
        (l.filter (fun f => f.copy2_ok || f.copy_ok)).map
          (fun f => segment_name ++ "_" ++ f.fname) := by
  intro l
  induction l with
  | nil => rfl
  | cons f rest ih =>
    by_cases h2 : f.copy2_ok = true
    · simp [copyFramesLoop, h2, ih]
    · by_cases h1 : f.copy_ok = true
      · simp [copyFramesLoop, h2, h1, ih]
      · simp [copyFramesLoop, h2, h1, ih]

/-- The running counter of the folder loop equals the number of image names
produced. -/
theorem processFolders_total :
    ∀ fs : List SegFolder, (processFolders fs).1 = (processFolders fs).2.2.length := by
  intro fs
  induction fs with
  | nil => rfl
  | cons fo rest ih =>
    simp [processFolders, ih]

/-- The image names produced by the folder loop, folder by folder in
iteration order. -/
theorem processFolders_names :
    ∀ fs : List SegFolder,
      (processFolders fs).2.2 = fs.flatMap (fun fo =>
        ((List.insertionSort fileLeProp (fo.files.filter frameGlob)).filter
          (fun f => f.copy2_ok || f.copy_ok)).map (fun f => fo.name ++ "_" ++ f.fname)) := by
  intro fs
  induction fs with
  | nil => rfl
  | cons fo rest ih =>
    simp [processFolders, ih, copyFramesLoop_eq]

/-- C2: after a unification run over the sorted immediate subfolders of the
frames tree, `dataset_summary.json` has `total_frames` equal to the number of
frame files successfully copied into the unified images directory and
`total_segments` equal to the number of subfolders processed (including ones
that contributed zero frames); each copied frame is named
`<segmentFolderName>_<originalFrameName>`. -/
theorem unified_dataset_summary_spec (entries : List FsEntry)
    (hdirs : entries.filterMap FsEntry.dirFolder ≠ []) :
    ∃ summary copiedImages,
      (create_unified_dataset (some entries)).outcome =
        UnifyOutcome.ok summary copiedImages ∧
      summary.total_frames = copiedImages.length ∧
      summary.total_segments = (entries.filterMap FsEntry.dirFolder).length ∧
      copiedImages =
        (List.insertionSort folderLeProp (entries.filterMap FsEntry.dirFolder)).flatMap
          (fun fo =>
            ((List.insertionSort fileLeProp (fo.files.filter frameGlob)).filter
              (fun f => f.copy2_ok || f.copy_ok)).map
              (fun f => fo.name ++ "_" ++ f.fname)) := by
  have hne : entries ≠ [] := by
    intro h
    rw [h] at hdirs
    exact hdirs rfl
  have hsortne : List.insertionSort folderLeProp (entries.filterMap FsEntry.dirFolder) ≠ [] := by
    intro h
    have := (List.perm_insertionSort folderLeProp (entries.filterMap FsEntry.dirFolder)).length_eq
    rw [h] at this
    exact hdirs (List.length_eq_zero.mp this.symm)
  refine ⟨⟨(processFolders (List.insertionSort folderLeProp
      (entries.filterMap FsEntry.dirFolder))).1,
    (List.insertionSort folderLeProp (entries.filterMap FsEntry.dirFolder)).length,
    (processFolders (List.insertionSort folderLeProp
      (entries.filterMap FsEntry.dirFolder))).2.1⟩,
    (processFolders (List.insertionSort folderLeProp
      (entries.filterMap FsEntry.dirFolder))).2.2, ?_, ?_, ?_, ?_⟩
  · simp only [create_unified_dataset]
    rw [if_neg (by simp [List.isEmpty_iff, hne]),
      if_neg (by simp [List.isEmpty_iff, hsortne])]
  · exact processFolders_total _
  · exact (List.perm_insertionSort folderLeProp _).length_eq
  · exact processFolders_names _

/-- The concrete frames tree of the C2 example: folders `a_segment_1` with 3
frames and `b_segment_1` with 2 frames, every copy succeeding. -/
def exampleFramesEntries : List FsEntry :=
  [FsEntry.dir ⟨"a_segment_1",
      [⟨"frame_0001.jpg", true, true⟩, ⟨"frame_0002.jpg", true, true⟩,
        ⟨"frame_0003.jpg", true, true⟩]⟩,
    FsEntry.dir ⟨"b_segment_1",
      [⟨"frame_0001.jpg", true, true⟩, ⟨"frame_0002.jpg", true, true⟩]⟩]

/-- Witness for C2: on the example tree the run reports `total_frames = 5`,
`total_segments = 2` and the five `<folder>_<frame>` names. -/
theorem unified_dataset_summary_witness :
    (create_unified_dataset (some exampleFramesEntries)).outcome =
      UnifyOutcome.ok ⟨5, 2, [⟨"a_segment_1", 3⟩, ⟨"b_segment_1", 2⟩]⟩
        ["a_segment_1_frame_0001.jpg", "a_segment_1_frame_0002.jpg",
          "a_segment_1_frame_0003.jpg", "b_segment_1_frame_0001.jpg",
          "b_segment_1_frame_0002.jpg"] ∧
    (∃ summary copiedImages,
      (create_unified_dataset (some exampleFramesEntries)).outcome =
        UnifyOutcome.ok summary copiedImages ∧
      summary.total_frames = copiedImages.length ∧
      summary.total_segments = (exampleFramesEntries.filterMap FsEntry.dirFolder).length ∧
      copiedImages =
        (List.insertionSort folderLeProp
            (exampleFramesEntries.filterMap FsEntry.dirFolder)).flatMap
          (fun fo =>
            ((List.insertionSort fileLeProp (fo.files.filter frameGlob)).filter
              (fun f => f.copy2_ok || f.copy_ok)).map
              (fun f => fo.name ++ "_" ++ f.fname))) :=
  ⟨by decide, unified_dataset_summary_spec exampleFramesEntries (by decide)⟩

/-- C3 counterexample: when the frames directory exists and is non-empty but
contains no subfolders (here: a single stray file), the run does abort with
the "no segment frame folders" report — but only after the unified_dataset,
images and metadata directories have already been created, contradicting the
claim that no output directory is created in that case. -/
theorem unifier_precond_cex :
    (create_unified_dataset (some [FsEntry.file "stray.txt"])).outcome =
      UnifyOutcome.noFolders ∧
    (create_unified_dataset (some [FsEntry.file "stray.txt"])).created_dirs ≠ [] ∧
    (create_unified_dataset (some [FsEntry.file "stray.txt"])).created_dirs =
      ["unified_dataset", "unified_dataset/images", "unified_dataset/metadata"] := by
  decide

/-- C3 (amended): when the frames directory does not exist or is completely
empty, the failure is reported and the run aborts before any output directory
is created; when the frames directory is non-empty but contains no
subfolders, the run also aborts with a report, but only after creating the
unified_dataset, images and metadata directories. -/
theorem unifier_precond_amended :
    create_unified_dataset none = ⟨[], UnifyOutcome.precondFail⟩ ∧
    (∀ entries : List FsEntry, entries = [] →
      create_unified_dataset (some entries) = ⟨[], UnifyOutcome.precondFail⟩) ∧
    (∀ entries : List FsEntry, entries ≠ [] →
      entries.filterMap FsEntry.dirFolder = [] →
      create_unified_dataset (some entries) =
        ⟨["unified_dataset", "unified_dataset/images", "unified_dataset/metadata"],
          UnifyOutcome.noFolders⟩) := by
  refine ⟨rfl, fun entries h => ?_, fun entries hne hnod => ?_⟩
  · subst h
    rfl
  · simp only [create_unified_dataset]
    rw [if_neg (by simp [List.isEmpty_iff, hne]), hnod]
    rw [if_pos (by simp)]

/-- Witness for C3 (amended): the empty directory and the stray-file
directory. -/
theorem unifier_precond_amended_witness :
    create_unified_dataset (some ([] : List FsEntry)) = ⟨[], UnifyOutcome.precondFail⟩ ∧
    create_unified_dataset (some [FsEntry.file "leftover.json"]) =
      ⟨["unified_dataset", "unified_dataset/images", "unified_dataset/metadata"],
        UnifyOutcome.noFolders⟩ :=
  ⟨unifier_precond_amended.2.1 [] rfl,
    unifier_precond_amended.2.2 [FsEntry.file "leftover.json"] (by simp) rfl⟩

/-- C10: loading the videos folder accepts exactly the directory entries that
match one of the glob patterns `*.mp4`, `*.avi`, `*.mov`, `*.MOV` and do not
begin with a dot (hidden files are excluded even when the extension matches),
and the resulting list is sorted. -/
theorem load_videos_spec (dirEntries : List String) :
    (∀ n : String, n ∈ load_videos dirEntries ↔
      (n ∈ dirEntries ∧ strStartsWith n "." = false ∧
        (strEndsWith n ".mp4" = true ∨ strEndsWith n ".avi" = true ∨
          strEndsWith n ".mov" = true ∨ strEndsWith n ".MOV" = true))) ∧
    List.Pairwise strLeProp (load_videos dirEntries) := by
  constructor
  · intro n
    unfold load_videos sortStrings
    rw [(List.perm_insertionSort strLeProp _).mem_iff]
    simp only [video_extensions, List.mem_flatMap, List.mem_filter, List.mem_cons,
      List.not_mem_nil, or_false, Bool.and_eq_true, Bool.not_eq_true']
    constructor
    · rintro ⟨ext, hext, hmem, hend, hdot⟩
      rcases hext with h | h | h | h <;> subst h <;> exact ⟨hmem, hdot, by tauto⟩
    · rintro ⟨hmem, hdot, hend⟩
      rcases hend with h | h | h | h
      · exact ⟨".mp4", by tauto, hmem, h, hdot⟩
      · exact ⟨".avi", by tauto, hmem, h, hdot⟩
      · exact ⟨".mov", by tauto, hmem, h, hdot⟩
      · exact ⟨".MOV", by tauto, hmem, h, hdot⟩
  · exact List.sorted_insertionSort strLeProp _

/-- Witness for C10: a concrete directory listing; the dot file is excluded
although its extension matches, the non-video file is excluded, and the
result is sorted. -/
theorem load_videos_spec_witness :
    load_videos [".hidden.mp4", "clip.mp4", "b.avi", "a.txt"] = ["b.avi", "clip.mp4"] ∧
    ("clip.mp4" ∈ load_videos [".hidden.mp4", "clip.mp4", "b.avi", "a.txt"] ↔
      ("clip.mp4" ∈ [".hidden.mp4", "clip.mp4", "b.avi", "a.txt"] ∧
        strStartsWith "clip.mp4" "." = false ∧
        (strEndsWith "clip.mp4" ".mp4" = true ∨ strEndsWith "clip.mp4" ".avi" = true ∨
          strEndsWith "clip.mp4" ".mov" = true ∨ strEndsWith "clip.mp4" ".MOV" = true))) :=
  ⟨by decide, (load_videos_spec [".hidden.mp4", "clip.mp4", "b.avi", "a.txt"]).1 "clip.mp4"⟩

end VideoAnnotator
